import Mathlib

/-!
Shallow embedding of the elastic-cli context/connection manager
(src/elastic_cli/config.py, connection.py, cli.py, utils.py,
commands/base.py) and proofs about the frozen claims.

Python dictionaries are modelled as association lists with Python's
dict semantics (lookup first match, assignment replaces in place or
appends, del removes the entry).  Python strings used as keys, URLs
and credentials are Lean Strings; an empty string models Python None
or "" wherever the source only tests truthiness.  The network is
modelled as an oracle: a predicate on URLs for the connectivity check
(GET to the endpoint root returned HTTP 200) and an explicit outcome
value for the substantive request.  File persistence is modelled as
the logical YAML document content (the spec scopes the YAML encoding
itself out as a standard-library concern).
-/

namespace ElasticCli

/-- Python dict lookup d.get(k): first entry with the given key. -/
def dictGet {α : Type} : List (String × α) → String → Option α
  | [], _ => none
  | (k, v) :: t, m => if k = m then some v else dictGet t m

/-- Python dict assignment d[k] = v: replace the existing entry for k in
place, otherwise append a new entry. -/
def dictSet {α : Type} : List (String × α) → String → α → List (String × α)
  | [], k, v => [(k, v)]
  | (k', v') :: t, k, v => if k' = k then (k, v) :: t else (k', v') :: dictSet t k v

/-- Python del d[k]: drop the entry with the given key. -/
def dictDel {α : Type} : List (String × α) → String → List (String × α)
  | [], _ => []
  | (k', v') :: t, k => if k' = k then t else (k', v') :: dictDel t k

theorem dictGet_dictSet_self {α : Type} (l : List (String × α)) (k : String) (v : α) :
    dictGet (dictSet l k v) k = some v := by
  induction l with
  | nil => simp [dictSet, dictGet]
  | cons hd t ih =>
    obtain ⟨k', v'⟩ := hd
    by_cases hk : k' = k
    · simp [dictSet, hk, dictGet]
    · simp [dictSet, hk, dictGet, ih]

theorem dictGet_dictSet_ne {α : Type} (l : List (String × α)) (k m : String) (v : α)
    (h : k ≠ m) : dictGet (dictSet l k v) m = dictGet l m := by
  induction l with
  | nil => simp [dictSet, dictGet, h]
  | cons hd t ih =>
    obtain ⟨k', v'⟩ := hd
    by_cases hk : k' = k
    · subst hk
      simp [dictSet, dictGet, h]
    · simp [dictSet, hk, dictGet, ih]

theorem dictGet_dictDel_ne {α : Type} (l : List (String × α)) (k m : String)
    (h : k ≠ m) : dictGet (dictDel l k) m = dictGet l m := by
  induction l with
  | nil => simp [dictDel]
  | cons hd t ih =>
    obtain ⟨k', v'⟩ := hd
    by_cases hk : k' = k
    · subst hk
      simp [dictDel, dictGet, h]
    · simp [dictDel, hk, dictGet, ih]

/-- A stored connection profile: the context dict written by do_connect
(cli.py lines 158-162), keys url / username / password.  Empty string
models an absent or empty value (Python falsy). -/
structure Context where
  url : String
  username : String
  password : String
  deriving DecidableEq

/-- In-memory state of ConfigManager (config.py): the contexts dict and
current_context_name (None modelled as none). -/
structure ConfigState where
  contexts : List (String × Context)
  current_context_name : Option String
  deriving DecidableEq

/-- Logical content of the persisted config file: the document written by
save_config, with keys current_context and contexts. -/
structure ConfigFile where
  current_context : Option String
  contexts : List (String × Context)
  deriving DecidableEq

/-- ConfigManager.load_config (config.py lines 24-35): an absent file
leaves the fields as they are; an existing file supplies
config.get('contexts', {}) and config.get('current_context'). -/
def load_config (file : Option ConfigFile) (s : ConfigState) : ConfigState :=
  match file with
  | none => s
  | some f => { contexts := f.contexts, current_context_name := f.current_context }

/-- ConfigManager.save_config (config.py lines 37-47): serializes the full
state, overwriting the file. -/
def save_config (s : ConfigState) : ConfigFile :=
  { current_context := s.current_context_name, contexts := s.contexts }

/-- ConfigManager.get_context (config.py lines 49-51). -/
def get_context (s : ConfigState) (n : String) : Option Context :=
  dictGet s.contexts n

/-- ConfigManager.add_context (config.py lines 53-56), the in-memory
mutation; the accompanying save_config is applied by the callers below. -/
def add_context (s : ConfigState) (n : String) (c : Context) : ConfigState :=
  { s with contexts := dictSet s.contexts n c }

/-- ConfigManager.remove_context (config.py lines 58-64): delete the entry
if present and clear current_context_name when it named the deleted
entry; no-op when the name is absent. -/
def remove_context (s : ConfigState) (n : String) : ConfigState :=
  if (dictGet s.contexts n).isSome then
    { contexts := dictDel s.contexts n,
      current_context_name :=
        if s.current_context_name = some n then none else s.current_context_name }
  else s

/-- ConfigManager.set_current_context (config.py lines 66-69): sets the
field unconditionally (None modelled as none). -/
def set_current_context (s : ConfigState) (n : Option String) : ConfigState :=
  { s with current_context_name := n }

/-- The C6 back-reference invariant on the configuration:
current_context_name is absent or names an existing context. -/
def configInv (s : ConfigState) : Bool :=
  match s.current_context_name with
  | none => true
  | some n => (dictGet s.contexts n).isSome

/-- The same invariant read off a persisted file. -/
def fileInv (f : ConfigFile) : Bool :=
  match f.current_context with
  | none => true
  | some n => (dictGet f.contexts n).isSome

/-- State of ElasticsearchConnection (connection.py): elastic_url and
elastic_auth; the requests session mirrors elastic_auth and is not
modelled separately. -/
structure ConnState where
  elastic_url : Option String
  elastic_auth : Option (String × String)
  deriving DecidableEq

/-- ElasticsearchConnection.set_connection (connection.py lines 21-29):
stores the url; credentials are kept only when both username and
password are truthy (non-empty). -/
def set_connection (url username password : String) : ConnState :=
  { elastic_url := some url,
    elastic_auth :=
      if username ≠ "" ∧ password ≠ "" then some (username, password) else none }

/-- ElasticsearchConnection.check_connection (connection.py lines 31-46):
false when no truthy url is configured; otherwise the result of the GET
to the endpoint root, where the oracle net merges "HTTP 200" (true) with
"other status or network error" (false). -/
def check_connection (c : ConnState) (net : String → Bool) : Bool :=
  match c.elastic_url with
  | none => false
  | some u => if u = "" then false else net u

/-- ElasticsearchConnection.clear_connection (connection.py lines 84-88). -/
def clear_connection : ConnState :=
  { elastic_url := none, elastic_auth := none }

/-- A JSON value as decoded by response.json(); numbers restricted to
integers, which the claims never exercise. -/
inductive JsonVal where
  | null
  | bool (b : Bool)
  | num (n : Int)
  | str (s : String)
  | arr (elems : List JsonVal)
  | obj (fields : List (String × JsonVal))

/-- The body of an HTTP response as make_request inspects it:
response.content empty, or non-empty and decoding to a JSON value, or
non-empty and failing to decode. -/
inductive Body where
  | empty
  | json (v : JsonVal)
  | malformed

/-- Outcome of the substantive HTTP call issued by make_request: a
delivered response (status code plus body) or a raised network error. -/
inductive NetOutcome where
  | response (status : Nat) (body : Body)
  | exc

/-- The dict literal returned by make_request for an empty 200/201 body
(connection.py line 72). -/
def successPayload : JsonVal :=
  JsonVal.obj [("success", JsonVal.bool true)]

/-- ElasticsearchConnection.make_request (connection.py lines 48-78).
Returns JsonVal.null where Python returns None.  The whole body sits in
a blanket try/except returning None, so an unsupported method (which
leaves the local variable response unbound and raises at the status
check) also yields null; the embedding is total for the same reason the
source never propagates an exception. -/
def make_request (c : ConnState) (net : String → Bool) (method : String)
    (outcome : NetOutcome) : JsonVal :=
  if check_connection c net = false then JsonVal.null
  else if method = "GET" ∨ method = "POST" ∨ method = "PUT" ∨ method = "DELETE" then
    match outcome with
    | NetOutcome.exc => JsonVal.null
    | NetOutcome.response status body =>
      if status = 200 ∨ status = 201 then
        match body with
        | Body.empty => successPayload
        | Body.json v => v
        | Body.malformed => JsonVal.null
      else JsonVal.null
  else JsonVal.null

/-- Combined state of ElasticsearchCLI (cli.py): the in-memory config, the
persisted file content, and the connection state. -/
structure CLIState where
  config : ConfigState
  file : ConfigFile
  conn : ConnState
  deriving DecidableEq

/-- ElasticsearchCLI._switch_context (cli.py lines 68-90).  The network is
modelled as a fixed reachability predicate for the duration of the
operation.  Every set_current_context call in the source immediately
persists (config.py line 69), hence the file update. -/
def switch_context (net : String → Bool) (name : String) (s : CLIState) :
    Bool × CLIState :=
  match get_context s.config name with
  | none => (false, s)
  | some ctx =>
    let conn1 := set_connection ctx.url ctx.username ctx.password
    if check_connection conn1 net then
      let cfg := set_current_context s.config (some name)
      (true, { config := cfg, file := save_config cfg, conn := conn1 })
    else
      let cfg := set_current_context s.config none
      (false, { config := cfg, file := save_config cfg, conn := clear_connection })

/-- ElasticsearchCLI.do_connect (cli.py lines 106-167), the proceed path
after the prompts (declining the overwrite confirmation leaves the state
unchanged and is not modelled).  On a failed check the context is not
saved, but the connection keeps the freshly set parameters — the source
has no clear_connection call in that branch (cli.py lines 166-167). -/
def do_connect (net : String → Bool) (name url username password : String)
    (s : CLIState) : CLIState :=
  let conn1 := set_connection url username password
  if check_connection conn1 net then
    let cfg := add_context s.config name
      { url := url, username := username, password := password }
    let s1 : CLIState := { config := cfg, file := save_config cfg, conn := conn1 }
    (switch_context net name s1).2
  else
    { s with conn := conn1 }

/-- The confirmed context delete path of ElasticsearchCLI.do_context
(cli.py lines 226-237): get_context guard, then
ConfigManager.remove_context, which persists.  The connection state is
not touched anywhere on this path. -/
def context_delete (name : String) (s : CLIState) : CLIState :=
  match get_context s.config name with
  | none => s
  | some _ =>
    let cfg := remove_context s.config name
    { config := cfg, file := save_config cfg, conn := s.conn }

/-- The C4 invariant: active_url is set iff a context is current, and
active_auth is set iff the active context carries both a non-empty
username and a non-empty password (no credentials without a context). -/
def connInv (s : CLIState) : Prop :=
  (s.conn.elastic_url.isSome = s.config.current_context_name.isSome) ∧
  (∀ n ctx, s.config.current_context_name = some n →
    get_context s.config n = some ctx →
    (s.conn.elastic_auth.isSome = true ↔ (ctx.username ≠ "" ∧ ctx.password ≠ ""))) ∧
  (s.config.current_context_name = none → s.conn.elastic_auth = none)

/-- utils.truncate_text (utils.py lines 30-44) over Python strings
modelled as char lists.  Python slicing text[:k] for a possibly negative
k is reproduced exactly. -/
def pySliceTo (l : List Char) (k : Int) : List Char :=
  if 0 ≤ k then l.take k.toNat else l.take (l.length - (-k).toNat)

/-- utils.truncate_text: unchanged at or under max_length, else the first
max_length - len(suffix) characters (Python slice) plus the suffix. -/
def truncate_text (text : List Char) (max_length : Nat := 50)
    (suffix : List Char := ['.', '.', '.']) : List Char :=
  if text.length ≤ max_length then text
  else pySliceTo text ((max_length : Int) - (suffix.length : Int)) ++ suffix

/-- BaseCommand.truncate_text (commands/base.py lines 46-50): slices to
max_length and then appends the three-dot suffix. -/
def truncate_text_base (text : List Char) (max_length : Nat := 50) : List Char :=
  if max_length < text.length then text.take max_length ++ ['.', '.', '.']
  else text

/-- The unit list of format_bytes (utils.py line 25). -/
def sizesUnits : List String :=
  ["Bytes", "KB", "MB", "GB", "TB", "PB", "EB", "ZB", "YB"]

/-- The unit index floor(log(size)/log(1024)) of format_bytes (utils.py
line 26) in exact arithmetic: the number of exponents i in 1..8 with
1024^i at most size.  Exact arithmetic agrees with the source's float
computation at every input the claims evaluate. -/
def unitIndex (size : Nat) : Nat :=
  ((List.range 9).filter (fun i => decide (0 < i ∧ 1024 ^ i ≤ size))).length

/-- Python round() of the fraction a / b (b positive) to the nearest
integer, ties to even. -/
def roundHalfEven (a b : Nat) : Nat :=
  let q := a / b
  let r := a % b
  if 2 * r < b then q
  else if b < 2 * r then q + 1
  else if q % 2 = 0 then q else q + 1

/-- Renders the value n/100 the way Python str() renders the float that
round(x, 2) produced: an integer part, a dot, and the fractional digits
with trailing zeros stripped but at least one digit kept. -/
def renderCenti (n : Nat) : String :=
  let ip := n / 100
  let fr := n % 100
  if fr = 0 then toString ip ++ ".0"
  else if fr % 10 = 0 then toString ip ++ "." ++ toString (fr / 10)
  else if fr < 10 then toString ip ++ ".0" ++ toString fr
  else toString ip ++ "." ++ toString fr

/-- utils.format_bytes (utils.py lines 9-27) with the default two
decimals, restricted to natural-number sizes: zero yields "0 Bytes",
otherwise round(size / 1024^i, 2) rendered as a Python float, a space,
and the unit.  The rounding and unit index use exact arithmetic, which
coincides with the source's float computation at the claims' inputs. -/
def format_bytes (size : Nat) : String :=
  if size = 0 then "0 Bytes"
  else
    renderCenti (roundHalfEven (size * 100) (1024 ^ unitIndex size)) ++ " " ++
      (sizesUnits.getD (unitIndex size) "")

/-! Concrete fixtures used by witnesses and counterexamples. -/

/-- A stored context with url http://x and no credentials. -/
def ctxA : Context := { url := "http://x", username := "", password := "" }

/-- A config whose only context "a" is current. -/
def cfgA : ConfigState := { contexts := [("a", ctxA)], current_context_name := some "a" }

/-- A CLI state connected to context "a". -/
def stA : CLIState :=
  { config := cfgA, file := save_config cfgA, conn := set_connection "http://x" "" "" }

/-- The initial CLI state: empty config, empty file, cleared connection. -/
def st0 : CLIState :=
  { config := { contexts := [], current_context_name := none },
    file := { current_context := none, contexts := [] },
    conn := clear_connection }

/-- A network where every URL is unreachable. -/
def netDown : String → Bool := fun _ => false

/-- A network where every URL answers HTTP 200. -/
def netUp : String → Bool := fun _ => true

/-- The C4 invariant holds in the connected fixture stA. -/
theorem connInv_stA : connInv stA := by
  refine ⟨rfl, ?_, ?_⟩
  · intro n ctx hn hctx
    have hn' : n = "a" := by
      simpa [stA, cfgA] using hn.symm
    subst hn'
    have hctx' : ctx = ctxA := by
      simpa [stA, cfgA, get_context, dictGet] using hctx.symm
    subst hctx'
    simp [stA, set_connection, ctxA]
  · intro h
    simp [stA, cfgA] at h

/-! The claims. -/

/-- C1: for every context name present in the store whose stored URL fails
the connectivity check, switch_context returns false and rolls back:
the connection state is cleared (active_url and active_auth unset) and
current_context_name is set to absent and persisted. -/
theorem c1_switch_context_rollback (s : CLIState) (net : String → Bool)
    (n : String) (ctx : Context)
    (hget : get_context s.config n = some ctx) (hnet : net ctx.url = false) :
    (switch_context net n s).1 = false ∧
    (switch_context net n s).2.conn.elastic_url = none ∧
    (switch_context net n s).2.conn.elastic_auth = none ∧
    (switch_context net n s).2.config.current_context_name = none ∧
    (switch_context net n s).2.file.current_context = none := by
  have hcf : check_connection (set_connection ctx.url ctx.username ctx.password) net
      = false := by
    by_cases hu : ctx.url = ""
    · simp [check_connection, set_connection, hu]
    · simp [check_connection, set_connection, hu, hnet]
  simp [switch_context, hget, hcf, clear_connection, set_current_context, save_config]

/-- C1 witness: the rollback at the concrete connected state stA when the
network is down. -/
theorem c1_switch_context_rollback_witness :
    get_context stA.config "a" = some ctxA ∧ netDown ctxA.url = false ∧
    ((switch_context netDown "a" stA).1 = false ∧
     (switch_context netDown "a" stA).2.conn.elastic_url = none ∧
     (switch_context netDown "a" stA).2.conn.elastic_auth = none ∧
     (switch_context netDown "a" stA).2.config.current_context_name = none ∧
     (switch_context netDown "a" stA).2.file.current_context = none) :=
  ⟨by decide, rfl, c1_switch_context_rollback stA netDown "a" ctxA (by decide) rfl⟩

/-- C2: do_connect with a failing connectivity check leaves the contexts
map and the persisted file unchanged; with a passing check it persists
the entry and the ensuing switch_context commits it as current. -/
theorem c2_do_connect (s : CLIState) (net : String → Bool)
    (name url username password : String) :
    (check_connection (set_connection url username password) net = false →
      (do_connect net name url username password s).config.contexts = s.config.contexts ∧
      (do_connect net name url username password s).file = s.file) ∧
    (check_connection (set_connection url username password) net = true →
      get_context (do_connect net name url username password s).config name =
        some { url := url, username := username, password := password } ∧
      (do_connect net name url username password s).config.current_context_name
        = some name ∧
      (do_connect net name url username password s).file =
        save_config (do_connect net name url username password s).config) := by
  constructor
  · intro h
    simp [do_connect, h]
  · intro h
    have hget : get_context
        (add_context s.config name { url := url, username := username, password := password })
        name = some { url := url, username := username, password := password } := by
      simp [get_context, add_context, dictGet_dictSet_self]
    simp [do_connect, h, switch_context, hget, get_context, add_context,
      set_current_context, save_config, dictGet_dictSet_self]

/-- C2 witness: a failed connect at stA saves nothing; a successful
connect commits the new context as current. -/
theorem c2_do_connect_witness :
    check_connection (set_connection "http://y" "" "") netDown = false ∧
    ((do_connect netDown "b" "http://y" "" "" stA).config.contexts = stA.config.contexts ∧
     (do_connect netDown "b" "http://y" "" "" stA).file = stA.file) ∧
    check_connection (set_connection "http://y" "u" "p") netUp = true ∧
    (get_context (do_connect netUp "b" "http://y" "u" "p" stA).config "b" =
       some { url := "http://y", username := "u", password := "p" } ∧
     (do_connect netUp "b" "http://y" "u" "p" stA).config.current_context_name
       = some "b" ∧
     (do_connect netUp "b" "http://y" "u" "p" stA).file =
       save_config (do_connect netUp "b" "http://y" "u" "p" stA).config) :=
  ⟨by decide, (c2_do_connect stA netDown "b" "http://y" "" "").1 (by decide),
   by decide, (c2_do_connect stA netUp "b" "http://y" "u" "p").2 (by decide)⟩

/-- C3 counterexample: deleting the current context "a" clears
current_context_name but leaves the connection state populated —
active_url is still http://x, while the claim requires it cleared. -/
theorem c3_delete_cx :
    stA.config.current_context_name = some "a" ∧
    (context_delete "a" stA).config.current_context_name = none ∧
    (context_delete "a" stA).conn.elastic_url = some "http://x" := by
  decide

/-- C3 (amended): deleting the current context clears and persists
current_context_name but leaves the connection state untouched; deleting
a non-current context changes neither current_context_name nor the
connection state. -/
theorem c3_delete_amended (s : CLIState) (name : String)
    (hmem : (get_context s.config name).isSome = true) :
    (s.config.current_context_name = some name →
      (context_delete name s).config.current_context_name = none ∧
      (context_delete name s).file.current_context = none) ∧
    (s.config.current_context_name ≠ some name →
      (context_delete name s).config.current_context_name
        = s.config.current_context_name) ∧
    (context_delete name s).conn = s.conn := by
  obtain ⟨ctx, hctx⟩ := Option.isSome_iff_exists.mp hmem
  have hd : (dictGet s.config.contexts name).isSome = true := by
    simpa [get_context] using hmem
  refine ⟨?_, ?_, ?_⟩
  · intro hcur
    simp [context_delete, hctx, remove_context, hd, hcur, save_config]
  · intro hcur
    simp [context_delete, hctx, remove_context, hd, hcur, save_config]
  · simp [context_delete, hctx, remove_context, hd]

/-- C3 witness: the amended behavior at the concrete state stA. -/
theorem c3_delete_amended_witness :
    (get_context stA.config "a").isSome = true ∧
    ((context_delete "a" stA).config.current_context_name = none ∧
     (context_delete "a" stA).file.current_context = none) ∧
    (context_delete "a" stA).conn = stA.conn :=
  ⟨by decide, (c3_delete_amended stA "a" (by decide)).1 (by decide),
   (c3_delete_amended stA "a" (by decide)).2.2⟩

/-- C4 counterexample: the invariant holds in the initial state, yet after
the completed (failed) connect command active_url is set to the
attempted URL while no context is current. -/
theorem c4_conn_inv_cx :
    connInv st0 ∧ ¬ connInv (do_connect netDown "a" "http://x" "" "" st0) := by
  constructor
  · refine ⟨rfl, ?_, fun _ => rfl⟩
    intro n ctx hn
    simp [st0] at hn
  · intro h
    have h1 := h.1
    have e1 : (do_connect netDown "a" "http://x" "" "" st0).conn.elastic_url.isSome
        = true := by decide
    have e2 : (do_connect netDown "a" "http://x" "" ""
        st0).config.current_context_name.isSome = false := by decide
    rw [e1, e2] at h1
    exact absurd h1 (by decide)

/-- C4 (amended): the connection invariant — active_url set iff a context
is current, active_auth set iff the active context carries both
non-empty credentials — is preserved by every switch_context, whether it
succeeds or fails; a failed connect and deletion of the current context
can violate it. -/
theorem c4_conn_inv_amended (s : CLIState) (net : String → Bool) (name : String)
    (hinv : connInv s) : connInv (switch_context net name s).2 := by
  cases hget : get_context s.config name with
  | none => simpa [switch_context, hget] using hinv
  | some ctx =>
    cases hc : check_connection (set_connection ctx.url ctx.username ctx.password) net with
    | false =>
      have heq : (switch_context net name s).2 =
          { config := set_current_context s.config none,
            file := save_config (set_current_context s.config none),
            conn := clear_connection } := by
        simp [switch_context, hget, hc]
      rw [heq]
      refine ⟨rfl, ?_, fun _ => rfl⟩
      intro n ctx' hn
      simp [set_current_context] at hn
    | true =>
      have heq : (switch_context net name s).2 =
          { config := set_current_context s.config (some name),
            file := save_config (set_current_context s.config (some name)),
            conn := set_connection ctx.url ctx.username ctx.password } := by
        simp [switch_context, hget, hc]
      rw [heq]
      refine ⟨rfl, ?_, ?_⟩
      · intro n ctx' hn hctx'
        have hn' : name = n := by simpa [set_current_context] using hn
        subst hn'
        have hget' : get_context s.config name = some ctx' := by
          simpa [get_context, set_current_context] using hctx'
        rw [hget] at hget'
        injection hget' with hcc
        subst hcc
        by_cases hu : ctx.username ≠ "" ∧ ctx.password ≠ ""
        · simp [set_connection, hu]
        · simp [set_connection, hu]
      · intro hnone
        simp [set_current_context] at hnone

/-- C4 witness: the invariant holds at stA and is preserved by a
successful switch. -/
theorem c4_conn_inv_amended_witness :
    connInv stA ∧ connInv (switch_context netUp "a" stA).2 :=
  ⟨connInv_stA, c4_conn_inv_amended stA netUp "a" connInv_stA⟩

/-- C5 counterexample: the "marker exactly when the body is empty" claim
fails — a 200 response whose non-empty body decodes to exactly the
object with the single field success set to true returns the very same
value as the empty-body marker, so the equivalence's right-to-left
direction does not pin down an empty body. -/
theorem c5_make_request_cx :
    make_request (set_connection "http://x" "" "") netUp "GET"
      (NetOutcome.response 200 (Body.json successPayload)) = successPayload ∧
    Body.json successPayload ≠ Body.empty :=
  ⟨rfl, fun h => nomatch h⟩

/-- C5 (amended): on a delivered response, status 200/201 with an empty
body yields the success marker, which is distinct from null; every
status outside 200/201 yields null; and the marker is produced exactly
when the status is 200/201 and the body is empty or decodes to the
marker object itself. -/
theorem c5_make_request_amended (c : ConnState) (net : String → Bool)
    (method : String) (status : Nat) (body : Body)
    (hconn : check_connection c net = true)
    (hm : method = "GET" ∨ method = "POST" ∨ method = "PUT" ∨ method = "DELETE") :
    ((status = 200 ∨ status = 201) → body = Body.empty →
      make_request c net method (NetOutcome.response status body) = successPayload) ∧
    (¬ (status = 200 ∨ status = 201) →
      make_request c net method (NetOutcome.response status body) = JsonVal.null) ∧
    successPayload ≠ JsonVal.null ∧
    (make_request c net method (NetOutcome.response status body) = successPayload →
      (status = 200 ∨ status = 201) ∧
      (body = Body.empty ∨ body = Body.json successPayload)) := by
  have hc : ¬ (check_connection c net = false) := by simp [hconn]
  refine ⟨?_, ?_, ?_, ?_⟩
  · intro hs hb
    subst hb
    simp [make_request, hc, hm, hs]
  · intro hs
    simp [make_request, hc, hm, hs]
  · intro hh
    exact nomatch hh
  · intro h
    by_cases hs : status = 200 ∨ status = 201
    · refine ⟨hs, ?_⟩
      cases body with
      | empty => exact Or.inl rfl
      | json v =>
        have hv : v = successPayload := by
          simpa [make_request, hc, hm, hs] using h
        exact Or.inr (by rw [hv])
      | malformed =>
        have : JsonVal.null = successPayload := by
          simpa [make_request, hc, hm, hs] using h
        exact absurd this (fun hh => nomatch hh)
    · have : JsonVal.null = successPayload := by
        simpa [make_request, hc, hm, hs] using h
      exact absurd this (fun hh => nomatch hh)

/-- C5 witness: a connected state over a live network, a GET delivering a
404, and the null result. -/
theorem c5_make_request_amended_witness :
    check_connection (set_connection "http://x" "" "") netUp = true ∧
    ¬ ((404 : Nat) = 200 ∨ (404 : Nat) = 201) ∧
    make_request (set_connection "http://x" "" "") netUp "GET"
      (NetOutcome.response 404 Body.empty) = JsonVal.null :=
  ⟨by decide, by decide,
   (c5_make_request_amended (set_connection "http://x" "" "") netUp "GET" 404
     Body.empty (by decide) (Or.inl rfl)).2.1 (by decide)⟩

/-- C6 counterexample: set_current_context stores its argument without
checking membership, so setting a name on an empty store leaves
current_context_name dangling — the claimed invariant fails after this
mutating operation. -/
theorem c6_config_inv_cx :
    configInv (set_current_context
      { contexts := [], current_context_name := none } (some "x")) = false := by
  decide

/-- C6 (amended): the back-reference invariant is preserved by add_context
and by remove_context (which clears the current name within the same
deletion when it named the removed entry, so the subsequent save never
persists a dangling reference); set_current_context preserves it exactly
when its argument is absent or names an existing context, as at every
call site in the source; load establishes it when the loaded file
satisfies it, and an absent file preserves it. -/
theorem c6_config_inv_amended (s : ConfigState) (n : String) (c : Context)
    (m : Option String) (f : ConfigFile) (hinv : configInv s = true) :
    configInv (add_context s n c) = true ∧
    configInv (remove_context s n) = true ∧
    ((m = none ∨ ∃ nm, m = some nm ∧ (dictGet s.contexts nm).isSome = true) →
      configInv (set_current_context s m) = true) ∧
    (fileInv f = true → configInv (load_config (some f) s) = true) ∧
    configInv (load_config none s) = true := by
  refine ⟨?_, ?_, ?_, ?_, hinv⟩
  · cases hcur : s.current_context_name with
    | none => simp [add_context, configInv, hcur]
    | some nm =>
      have hmem : (dictGet s.contexts nm).isSome = true := by
        simpa [configInv, hcur] using hinv
      by_cases he : n = nm
      · subst he
        simp [add_context, configInv, hcur, dictGet_dictSet_self]
      · simp [add_context, configInv, hcur, dictGet_dictSet_ne _ _ _ _ he, hmem]
  · by_cases hn : (dictGet s.contexts n).isSome = true
    · cases hcur : s.current_context_name with
      | none => simp [remove_context, hn, configInv, hcur]
      | some nm =>
        by_cases he : nm = n
        · subst he
          simp [remove_context, hn, configInv, hcur]
        · have hmem : (dictGet s.contexts nm).isSome = true := by
            simpa [configInv, hcur] using hinv
          have hdel : dictGet (dictDel s.contexts n) nm = dictGet s.contexts nm :=
            dictGet_dictDel_ne s.contexts n nm (fun hh => he hh.symm)
          simp [remove_context, hn, configInv, hcur, he, hdel, hmem]
    · simp [remove_context, hn, hinv]
  · intro hm
    cases hm with
    | inl h =>
      subst h
      simp [set_current_context, configInv]
    | inr h =>
      obtain ⟨nm, hm1, hm2⟩ := h
      subst hm1
      simp [set_current_context, configInv, hm2]
  · intro hf
    cases hc : f.current_context with
    | none => simp [load_config, configInv, hc]
    | some nm =>
      have hmem : (dictGet f.contexts nm).isSome = true := by
        simpa [fileInv, hc] using hf
      simp [load_config, configInv, hc, hmem]

/-- C6 witness: the amended invariant preservation at the concrete
config cfgA. -/
theorem c6_config_inv_amended_witness :
    configInv cfgA = true ∧
    configInv (add_context cfgA "b" ctxA) = true ∧
    configInv (remove_context cfgA "a") = true ∧
    configInv (set_current_context cfgA (some "a")) = true :=
  ⟨by decide,
   (c6_config_inv_amended cfgA "b" ctxA (some "a") (save_config cfgA) (by decide)).1,
   (c6_config_inv_amended cfgA "a" ctxA (some "a") (save_config cfgA) (by decide)).2.1,
   (c6_config_inv_amended cfgA "a" ctxA (some "a") (save_config cfgA) (by decide)).2.2.1
     (Or.inr ⟨"a", rfl, by decide⟩)⟩

/-- C7 counterexample: the source renders round(1024/1024, 2) through
Python's float str(), producing "1.0 KB", not the claimed "1 KB". -/
theorem c7_format_bytes_cx :
    format_bytes 1024 = "1.0 KB" ∧ "1.0 KB" ≠ "1 KB" := by decide

/-- C7 (amended): format_bytes yields "0 Bytes" at 0, "1.0 KB" at 1024,
"1.5 KB" at 1536 and "1.0 MB" at 1048576 — whole-number quotients carry
Python's trailing ".0". -/
theorem c7_format_bytes_amended :
    format_bytes 0 = "0 Bytes" ∧ format_bytes 1024 = "1.0 KB" ∧
    format_bytes 1536 = "1.5 KB" ∧ format_bytes 1048576 = "1.0 MB" := by decide

/-- C8 counterexample: the BaseCommand copy of truncate_text slices to
max_length and then appends the three-dot suffix, so a 60-character
input truncated to 50 has length 53, exceeding max_length. -/
theorem c8_truncate_cx :
    (truncate_text_base (List.replicate 60 'a') 50).length = 53 ∧
    ¬ ((truncate_text_base (List.replicate 60 'a') 50).length ≤ 50) := by decide

/-- C8 (amended): for the utils truncate_text and any max_length of at
least the suffix length 3, text at or under max_length is returned
unchanged, and longer text becomes its first max_length - 3 characters
plus "...", capped at max_length and ending in the suffix; the
BaseCommand copy instead returns max_length + 3 characters when it
truncates. -/
theorem c8_truncate_amended (text : List Char) (max_length : Nat)
    (h3 : 3 ≤ max_length) :
    (text.length ≤ max_length → truncate_text text max_length = text) ∧
    (max_length < text.length →
      truncate_text text max_length = text.take (max_length - 3) ++ ['.', '.', '.'] ∧
      (truncate_text text max_length).length ≤ max_length ∧
      (∃ p, truncate_text text max_length = p ++ ['.', '.', '.'])) ∧
    (max_length < text.length →
      (truncate_text_base text max_length).length = max_length + 3) := by
  refine ⟨?_, ?_, ?_⟩
  · intro h
    simp [truncate_text, h]
  · intro h
    have hnot : ¬ text.length ≤ max_length := by omega
    have hk : (0 : Int) ≤ (max_length : Int) - 3 := by omega
    have htn : ((max_length : Int) - 3).toNat = max_length - 3 := by omega
    have he : truncate_text text max_length
        = text.take (max_length - 3) ++ ['.', '.', '.'] := by
      simp [truncate_text, hnot, pySliceTo, hk, htn]
    refine ⟨he, ?_, ⟨text.take (max_length - 3), he⟩⟩
    rw [he]
    simp [List.length_take]
    omega
  · intro h
    simp [truncate_text_base, h, List.length_take]
    omega

/-- C8 witness: the amended bound at a 60-character string truncated
to 50. -/
theorem c8_truncate_amended_witness :
    3 ≤ 50 ∧
    (truncate_text (List.replicate 60 'a') 50
       = (List.replicate 60 'a').take 47 ++ ['.', '.', '.'] ∧
     (truncate_text (List.replicate 60 'a') 50).length ≤ 50 ∧
     (∃ p, truncate_text (List.replicate 60 'a') 50 = p ++ ['.', '.', '.'])) :=
  ⟨by decide,
   (c8_truncate_amended (List.replicate 60 'a') 50 (by decide)).2.1 (by decide)⟩

/-- C9: save followed by load reproduces the contexts map and the
current-context value identically, for every configuration state and
whatever state the fields held before the load. -/
theorem c9_save_load_round_trip (s t : ConfigState) :
    load_config (some (save_config s)) t = s :=
  rfl

/-- C10: make_request never propagates an exception — the source wraps the
whole body in a blanket except returning None, which makes the embedding
total — and in particular any method other than GET, POST, PUT and
DELETE yields null, whatever the connection state, check outcome or
request outcome. -/
theorem c10_unsupported_method_null (c : ConnState) (net : String → Bool)
    (method : String) (outcome : NetOutcome)
    (h : ¬ (method = "GET" ∨ method = "POST" ∨ method = "PUT" ∨ method = "DELETE")) :
    make_request c net method outcome = JsonVal.null := by
  by_cases hc : check_connection c net = false <;> simp [make_request, hc, h]

/-- C10 witness: a PATCH request on a connected state over a live network
returns null. -/
theorem c10_unsupported_method_null_witness :
    ¬ (("PATCH" : String) = "GET" ∨ ("PATCH" : String) = "POST" ∨
       ("PATCH" : String) = "PUT" ∨ ("PATCH" : String) = "DELETE") ∧
    make_request (set_connection "http://x" "" "") netUp "PATCH"
      (NetOutcome.response 200 Body.empty) = JsonVal.null :=
  ⟨by decide,
   c10_unsupported_method_null (set_connection "http://x" "" "") netUp "PATCH"
     (NetOutcome.response 200 Body.empty) (by decide)⟩

end ElasticCli
